import Mathlib

/-!
Shallow embedding of the stacked-pull-request reconciliation core of the
repository (Go sources under bl/internal, spr, bl/gitapi and
github/githubclient), together with proofs settling the specification claims
about check-rollup mapping, state assembly, selection application, PR-set
persistence, merge gating, orphan handling and status rendering.
-/

namespace Spr

/-- Internal aggregate check status (the github package CheckStatus constants:
unknown, pending, pass, fail). -/
inductive CheckStatus
  | unknown
  | pending
  | pass
  | fail
deriving DecidableEq, Repr

/-- Forge status-check rollup state: the GraphQL StatusState enumeration
(SUCCESS, PENDING, EXPECTED, ERROR, FAILURE), plus empty for the empty string
the wire type carries when the forge reports no rollup. -/
inductive StatusState
  | success
  | pending
  | expected
  | error
  | failure
  | empty
deriving DecidableEq, Repr

/-- Forge mergeable state (GraphQL MergeableState). -/
inductive MergeableState
  | mergeable
  | conflicting
  | unknown
deriving DecidableEq, Repr

/-- Forge review decision (GraphQL PullRequestReviewDecision; noDecision stands
for a null decision). -/
inductive ReviewDecision
  | approved
  | changesRequested
  | reviewRequired
  | noDecision
deriving DecidableEq, Repr

/-- The four merge-status flags of a pull request
(github.PullRequestMergeStatus). -/
structure PullRequestMergeStatus where
  ChecksPass : CheckStatus
  ReviewApproved : Bool
  NoConflicts : Bool
  Stacked : Bool
deriving DecidableEq, Repr

/-- ComputeMergeStatus (bl/internal, genqlient path): a switch over the status
check rollup state in which ERROR falls through to FAILURE giving fail,
EXPECTED falls through to PENDING giving pending, and the empty string falls
through to SUCCESS giving pass; NoConflicts is MERGEABLE equality,
ReviewApproved is APPROVED equality, and Stacked keeps the zero value false. -/
def ComputeMergeStatus (rollup : StatusState) (mergeableState : MergeableState)
    (review : ReviewDecision) : PullRequestMergeStatus :=
  { ChecksPass :=
      match rollup with
      | .error => .fail
      | .failure => .fail
      | .expected => .pending
      | .pending => .pending
      | .empty => .pass
      | .success => .pass
    NoConflicts := mergeableState == MergeableState.mergeable
    ReviewApproved := review == ReviewDecision.approved
    Stacked := false }

/-- ComputeCheckStatus (bl/internal, fezzik path): reads the first commit
node's StatusCheckRollup pointer; when the node list is empty or the pointer is
nil the flag is unknown, and otherwise the switch sends SUCCESS to pass,
PENDING to pending, ERROR and FAILURE to fail, and every other state (the
default case, which catches EXPECTED and the empty string) to unknown. Each
list entry is one commit node's optional rollup state. -/
def ComputeCheckStatus : List (Option StatusState) → CheckStatus
  | some s :: _ =>
    match s with
    | .success => .pass
    | .pending => .pending
    | .error => .fail
    | .failure => .fail
    | _ => .unknown
  | _ => .unknown

/-- Check-status computation inside matchPullRequestStack (classic
github/githubclient client): the flag starts at pass, and when the rollup
state string is non-empty a switch sends SUCCESS to pass, PENDING to pending
and everything else (the default case, which catches EXPECTED, ERROR and
FAILURE) to fail. -/
def matchPullRequestStackCheckStatus (state : StatusState) : CheckStatus :=
  if state == StatusState.empty then CheckStatus.pass
  else
    match state with
    | .success => .pass
    | .pending => .pending
    | _ => .fail

/-- The check-rollup table exactly as the specification words it: SUCCESS to
pass, PENDING and EXPECTED to pending, ERROR and FAILURE to fail, empty or
absent to pass. -/
def specCheckRollupTable (s : StatusState) : CheckStatus :=
  match s with
  | .success => .pass
  | .empty => .pass
  | .pending => .pending
  | .expected => .pending
  | .error => .fail
  | .failure => .fail

/-- A git commit as the core sees it (git.Commit): the stable commit-id
trailer value, the hash, the subject line and the WIP marker. -/
structure Commit where
  CommitID : String
  CommitHash : String
  Subject : String
  WIP : Bool
deriving DecidableEq, Repr

/-- A forge pull request (github.PullRequest), restricted to the fields the
reconciliation core reads: identity, number, head and base ref names, merge
status and the top commit as the forge knows it. -/
structure PullRequest where
  Id : String
  Number : Int
  FromBranch : String
  ToBranch : String
  MergeStatus : PullRequestMergeStatus
  Commit : Commit
deriving DecidableEq, Repr

/-- A local unmerged commit enriched with its pull request, user-facing index
and PR-set index (bl/internal LocalCommit). -/
structure LocalCommit extends Commit where
  PullRequest : Option PullRequest
  Index : Int
  PRIndex : Option Int
deriving DecidableEq, Repr

/-- The configuration fields the embedded operations consult
(config.Config.Repo). -/
structure RepoConfig where
  RequireChecks : Bool
  RequireApproval : Bool
  GitHubRepoName : String
  MergeCheck : String
deriving DecidableEq, Repr

/-- The reconciliation snapshot (bl/internal State): head-first local commits,
the repository id, the orphaned PRs and the PR sets the current operation has
mutated. The 0th commit of LocalCommits is the HEAD commit. -/
structure State where
  RepositoryId : String
  LocalCommits : List LocalCommit
  OrphanedPRs : Finset (Option PullRequest)
  MutatedPRSets : Finset Int
deriving DecidableEq

/-- A selector evaluation result (bl/internal Indices): the destination
PR-set index and the selected commit indices. -/
structure Indices where
  DestinationPRIndex : Option Int
  CommitIndexes : Finset Int
deriving DecidableEq

/-- UTF-8 byte length of a rune sequence: this is what Go's len reports on the
string that the rune sequence encodes. -/
def utf8Len (s : List Char) : Nat :=
  (s.map Char.utf8Size).sum

/-- CommitIdFromBranch (bl/internal): splits the branch name on the slash and
returns the third segment when there are exactly three segments, the first is
spr and the third has byte length 8; otherwise returns the empty string. A Go
string is modelled as its rune sequence, and the empty result is the empty
sequence. -/
def CommitIdFromBranch (branchName : List Char) : List Char :=
  let segments := branchName.splitOn '/'
  if segments.length ≠ 3 then []
  else if segments.getD 0 [] ≠ "spr".toList then []
  else
    let commitId := segments.getD 2 []
    if utf8Len commitId ≠ 8 then []
    else commitId

/-- A lowercase hexadecimal digit, as the specification's branch-naming rule
demands of the commit-id segment. -/
def isLowerHexDigit (c : Char) : Bool :=
  (('0' ≤ c) && (c ≤ '9')) || (('a' ≤ c) && (c ≤ 'f'))

/-- padNumber (bl/internal): appends pad minus byte-length spaces when that
difference is positive; Go computes the difference with len, hence in bytes. -/
def padNumber (pad : Nat) (s : List Char) : List Char :=
  s ++ List.replicate (pad - utf8Len s) ' '

/-- FormatSubject (bl/internal): when the subject holds at most 50 runes it is
padded with padNumber 50, and otherwise the first 46 runes are kept and
" ..." is appended. -/
def FormatSubject (subject : List Char) : List Char :=
  if subject.length ≤ 50 then padNumber 50 subject
  else subject.take 46 ++ " ...".toList

/-- One step of the SetStackedCheck sweep (bl/internal), written on the
oldest-first list: a commit without a pull request is skipped, the first
commit that is WIP or fails a gating requirement stops the whole sweep (the
Go loop returns, leaving the newer commits untouched), and otherwise the
commit's Stacked flag is set and the sweep continues. -/
def sweepOldestFirst (cfg : RepoConfig) : List LocalCommit → List LocalCommit
  | [] => []
  | cm :: rest =>
    match cm.PullRequest with
    | none => cm :: sweepOldestFirst cfg rest
    | some pr =>
      if cm.WIP then cm :: rest
      else if !pr.MergeStatus.NoConflicts then cm :: rest
      else if cfg.RequireChecks && !(pr.MergeStatus.ChecksPass == CheckStatus.pass) then cm :: rest
      else if cfg.RequireApproval && !pr.MergeStatus.ReviewApproved then cm :: rest
      else
        { cm with
          PullRequest := some { pr with MergeStatus := { pr.MergeStatus with Stacked := true } } }
          :: sweepOldestFirst cfg rest

/-- SetStackedCheck (bl/internal): the Go loop walks the head-first commit
list from the last element (the oldest commit) towards the head, which is the
oldest-first sweep on the reversed list. -/
def SetStackedCheck (cfg : RepoConfig) (gitCommits : List LocalCommit) : List LocalCommit :=
  (sweepOldestFirst cfg gitCommits.reverse).reverse

/-- The Stacked bit of a local commit's pull request (false when the commit
has no pull request). -/
def stackedFlag (cm : LocalCommit) : Bool :=
  match cm.PullRequest with
  | none => false
  | some pr => pr.MergeStatus.Stacked

/-- Whether a commit lets the stacked sweep continue: it has no pull request,
or it is not WIP, has no conflicts, and meets the configured checks and
approval requirements. -/
def sweepPasses (cfg : RepoConfig) (cm : LocalCommit) : Bool :=
  match cm.PullRequest with
  | none => true
  | some pr =>
    !cm.WIP && pr.MergeStatus.NoConflicts
      && (!cfg.RequireChecks || pr.MergeStatus.ChecksPass == CheckStatus.pass)
      && (!cfg.RequireApproval || pr.MergeStatus.ReviewApproved)

/-- The gating requirement of the specification claim for one pull request
below a commit: not WIP, no conflicts, and, when configuration requires them,
checks passing and review approval. Commits without a pull request impose
nothing. -/
def specGateOK (cfg : RepoConfig) (cm : LocalCommit) : Bool :=
  match cm.PullRequest with
  | none => true
  | some pr =>
    !cm.WIP && pr.MergeStatus.NoConflicts
      && (!cfg.RequireChecks || pr.MergeStatus.ChecksPass == CheckStatus.pass)
      && (!cfg.RequireApproval || pr.MergeStatus.ReviewApproved)

/-- The specification claim's stacked condition for a commit of a commit
list: every pull request belonging to a commit of the same PR set with a
smaller index (below it in the stack) meets its gate and is not WIP. -/
def specStackedOK (cfg : RepoConfig) (commits : List LocalCommit) (cm : LocalCommit) : Bool :=
  commits.all fun other =>
    if other.PRIndex == cm.PRIndex && other.Index < cm.Index && other.PullRequest.isSome
    then specGateOK cfg other
    else true

/-- A placeholder local commit used only as the default of List.getD. -/
def defaultLocalCommit : LocalCommit :=
  { CommitID := "", CommitHash := "", Subject := "", WIP := false,
    PullRequest := none, Index := 0, PRIndex := none }

/-- One iteration of the destination-resolution loop of State.ApplyIndices:
a commit whose PR-set index is at least the running value bumps the running
value to that index plus one. -/
def nextPRIndexStep (next : Int) (cm : LocalCommit) : Int :=
  match cm.PRIndex with
  | some p => if next ≤ p then p + 1 else next
  | none => next

/-- The destination-resolution loop of State.ApplyIndices (bl/internal):
starting from zero, every commit whose PR-set index is at least the running
value bumps the running value to that index plus one. -/
def nextPRIndex (commits : List LocalCommit) : Int :=
  commits.foldl nextPRIndexStep 0

/-- One iteration of the membership loop of State.ApplyIndices: compares
whether the commit is in the destination set with whether it should be, and
updates the rebuilt commit list, the orphaned PRs and the mutated set
indices accordingly. -/
def applyIndicesStep (dest : Int) (commitIndexes : Finset Int)
    (acc : List LocalCommit × Finset (Option PullRequest) × Finset Int)
    (cm : LocalCommit) : List LocalCommit × Finset (Option PullRequest) × Finset Int :=
  let commits := acc.1
  let orphans := acc.2.1
  let mutated := acc.2.2
  let shouldBeInPrSet := cm.Index ∈ commitIndexes
  let isInPrSet := cm.PRIndex = some dest
  if isInPrSet ∧ shouldBeInPrSet then (commits ++ [cm], orphans, mutated)
  else if ¬isInPrSet ∧ ¬shouldBeInPrSet then (commits ++ [cm], orphans, mutated)
  else if isInPrSet ∧ ¬shouldBeInPrSet then
    (commits ++ [{ cm with PRIndex := none }], insert cm.PullRequest orphans, insert dest mutated)
  else
    let mutatedWithOld :=
      match cm.PRIndex with
      | some p => insert p mutated
      | none => mutated
    (commits ++ [{ cm with PRIndex := some dest }], orphans, insert dest mutatedWithOld)

/-- State.ApplyIndices (bl/internal): a nil destination with no selected
commits is a no-op; a nil destination otherwise becomes the next available
PR-set index; the membership loop updates each commit's PR-set index,
collecting orphaned PRs and mutated sets; and finally the mutated sets are
intersected with the PR-set indices that still have members. Returns the
updated state together with the updated indices. -/
def ApplyIndices (s : State) (indices : Indices) : State × Indices :=
  if indices.DestinationPRIndex = none ∧ indices.CommitIndexes.card = 0 then (s, indices)
  else
    let dest := indices.DestinationPRIndex.getD (nextPRIndex s.LocalCommits)
    let acc := s.LocalCommits.foldl (applyIndicesStep dest indices.CommitIndexes)
      ([], s.OrphanedPRs, s.MutatedPRSets)
    let existingPRSets := (acc.1.filterMap LocalCommit.PRIndex).toFinset
    ({ s with
        LocalCommits := acc.1
        OrphanedPRs := acc.2.1
        MutatedPRSets := acc.2.2 ∩ existingPRSets },
      { indices with DestinationPRIndex := some dest })

/-- State.CommitsByPRSet (bl/internal): the local commits whose PR-set index
equals the given index, in head-first order (newest first). -/
def CommitsByPRSet (s : State) (prIndex : Int) : List LocalCommit :=
  s.LocalCommits.filter fun ci => ci.PRIndex == some prIndex

/-- The merge-check gate of Stackediff.MergePRSet (spr/spr.go): when a
pre-merge check command is configured and the selected PR set is non-empty,
the recorded last-passing commit hash for the repository must exist, and must
be the literal SKIP or the hash of the newest commit of the set (the head of
CommitsByPRSet); otherwise the merge fails. Returns true when the merge is
rejected. -/
def MergePRSetCheckFails (mergeCheck : String) (mergeCheckCommit : Option String)
    (s : State) (index : Int) : Bool :=
  if mergeCheck ≠ "" then
    match CommitsByPRSet s index with
    | [] => false
    | lastCommit :: _ =>
      match mergeCheckCommit with
      | none => true
      | some checkedCommit =>
        checkedCommit ≠ "SKIP" ∧ lastCommit.CommitHash ≠ checkedCommit
  else false

/-- One iteration of the map-rebuilding loop of State.UpdatePRSetState
(bl/internal): a commit carrying a PR-set index writes its commit-id to that
index, overwriting any earlier entry for the same key. -/
def mapInsertStep (m : String → Option Int) (cm : LocalCommit) : String → Option Int :=
  match cm.PRIndex with
  | none => m
  | some p => fun k => if k = cm.CommitID then some p else m k

/-- The fresh per-repository PR-set map State.UpdatePRSetState (bl/internal)
builds: the fold of the insertion step over the local commits, starting from
the empty map. -/
def buildPRSetMap (commits : List LocalCommit) : String → Option Int :=
  commits.foldl mapInsertStep (fun _ => none)

/-- State.UpdatePRSetState (bl/internal): replaces the repository's entry of
the persisted repo-to-commit-id-to-PR-set mapping with the map rebuilt from
the state's local commits. -/
def UpdatePRSetState (repoToMap : String → (String → Option Int))
    (repoName : String) (s : State) : String → (String → Option Int) :=
  fun repo => if repo = repoName then buildPRSetMap s.LocalCommits else repoToMap repo

/-- Modelled from the spec: the maputils garbage-collecting map wrapper
(bl/maputils, not among the provided sources). Per the specification's
"Garbage-collect the persisted map: drop keys no longer present locally" and
the call-site comment "Purge any mappings that aren't used", purging keeps
exactly the entries whose key was looked up. -/
def purgeUnaccessed (m : String → Option Int) (accessed : List String) :
    String → Option Int :=
  fun k => if k ∈ accessed then m k else none

/-- The commit-ids UpdateRepoToCommitIdToPrSet looks up: ids of local commits
that have an open core-managed pull request in the PR map. -/
def accessedIds (gitCommits : List LocalCommit)
    (prMap : String → Option PullRequest) : List String :=
  gitCommits.filterMap fun cm =>
    if (prMap cm.CommitID).isSome then some cm.CommitID else none

/-- UpdateRepoToCommitIdToPrSet (bl/internal): garbage-collects the persisted
per-repository commit-id-to-PR-set map, looking up exactly the ids of local
commits that the PR map also knows, and keeping only the looked-up entries. -/
def UpdateRepoToCommitIdToPrSet (prSetMap : String → Option Int)
    (gitCommits : List LocalCommit) (prMap : String → Option PullRequest) :
    String → Option Int :=
  purgeUnaccessed prSetMap (accessedIds gitCommits prMap)

/-- An externally visible action of the orphan-handling code paths: a PR
comment, a PR close through the GraphQL mutation, a PR close through the REST
edit, or a remote branch deletion. -/
inductive ForgeAction
  | comment (prNumber : Int) (body : String)
  | closePR (prNumber : Int)
  | editClose (prNumber : Int)
  | deleteBranch (branch : String)
deriving DecidableEq, Repr

/-- GitApi.DeletePullRequest (bl/gitapi): edits the pull request to the
closed state and then deletes its remote head branch. -/
def DeletePullRequestActions (pr : PullRequest) : List ForgeAction :=
  [ForgeAction.editClose pr.Number, ForgeAction.deleteBranch pr.FromBranch]

/-- The orphan-deletion step of Stackediff.UpdatePRSets (spr/spr.go): every
non-nil orphaned pull request is deleted through GitApi.DeletePullRequest. -/
def UpdatePRSetsOrphanActions (orphans : List (Option PullRequest)) : List ForgeAction :=
  orphans.flatMap fun o =>
    match o with
    | none => []
    | some pr => DeletePullRequestActions pr

/-- The orphan-closing step of Stackediff.UpdatePullRequests (spr/spr.go):
every open pull request whose top commit-id is not among the local commits is
commented with "Closing pull request: commit has gone away" and closed. -/
def UpdatePullRequestsOrphanActions (localCommitIds : List String)
    (pullRequests : List PullRequest) : List ForgeAction :=
  pullRequests.flatMap fun pr =>
    if pr.Commit.CommitID ∈ localCommitIds then []
    else
      [ForgeAction.comment pr.Number "Closing pull request: commit has gone away",
        ForgeAction.closePR pr.Number]

/-- A concrete local commit carrying PR-set index 2, used by witnesses. -/
def commitWithIndexTwo : LocalCommit :=
  { CommitID := "aaaaaaaa"
    CommitHash := "h1"
    Subject := "A"
    WIP := false
    PullRequest := none
    Index := 0
    PRIndex := some 2 }

/-- A concrete one-commit state carrying PR-set index 2, used by witnesses. -/
def stateWithIndexTwo : State :=
  { RepositoryId := "R"
    LocalCommits := [commitWithIndexTwo]
    OrphanedPRs := ∅
    MutatedPRSets := ∅ }

/-- The empty nil-destination selection. -/
def emptyNilSelection : Indices :=
  { DestinationPRIndex := none, CommitIndexes := ∅ }

/-- A nil-destination selection naming commit index 0. -/
def indexZeroNilSelection : Indices :=
  { DestinationPRIndex := none, CommitIndexes := {0} }

/-- A one-commit state with no PR-set membership, used by the C8 witness. -/
def stateNoIndex : State :=
  { RepositoryId := "R"
    LocalCommits := [{ commitWithIndexTwo with PRIndex := none }]
    OrphanedPRs := ∅
    MutatedPRSets := ∅ }

/-- A selection putting commit index 0 into PR set 5. -/
def intoSetFiveSelection : Indices :=
  { DestinationPRIndex := some 5, CommitIndexes := {0} }

/-- Whether a forge action is a PR comment. -/
def isCommentAction : ForgeAction → Bool
  | .comment _ _ => true
  | _ => false

/-- Whether a forge action is a remote branch deletion. -/
def isDeleteBranchAction : ForgeAction → Bool
  | .deleteBranch _ => true
  | _ => false

/-- A concrete orphaned pull request used by the C7 counterexample and
witness. -/
def orphanedExamplePR : PullRequest :=
  { Id := "PR_1"
    Number := 7
    FromBranch := "spr/main/bbbbbbbb"
    ToBranch := "main"
    MergeStatus := { ChecksPass := .pass, ReviewApproved := true, NoConflicts := true, Stacked := false }
    Commit := { CommitID := "bbbbbbbb", CommitHash := "h2", Subject := "B", WIP := false } }

/-- The configuration of the C2 counterexample: neither checks nor approval
are required. -/
def laxRepoConfig : RepoConfig :=
  { RequireChecks := false
    RequireApproval := false
    GitHubRepoName := "repo"
    MergeCheck := "" }

/-- The pull request of the older, WIP commit of the C2 counterexample; it is
in PR set 0 and green on every gate. -/
def prOfOldWip : PullRequest :=
  { Id := "PR_2"
    Number := 2
    FromBranch := "spr/main/cccccccc"
    ToBranch := "main"
    MergeStatus := { ChecksPass := .pass, ReviewApproved := true, NoConflicts := true, Stacked := false }
    Commit := { CommitID := "cccccccc", CommitHash := "h3", Subject := "WIP C", WIP := true } }

/-- The older local commit of the C2 counterexample: WIP, in PR set 0. -/
def oldWipCommit : LocalCommit :=
  { CommitID := "cccccccc"
    CommitHash := "h3"
    Subject := "WIP C"
    WIP := true
    PullRequest := some prOfOldWip
    Index := 0
    PRIndex := some 0 }

/-- The pull request of the newer commit of the C2 counterexample; it is in
PR set 1 and green on every gate. -/
def prOfNewOk : PullRequest :=
  { Id := "PR_3"
    Number := 3
    FromBranch := "spr/main/dddddddd"
    ToBranch := "main"
    MergeStatus := { ChecksPass := .pass, ReviewApproved := true, NoConflicts := true, Stacked := false }
    Commit := { CommitID := "dddddddd", CommitHash := "h4", Subject := "D", WIP := false } }

/-- The newer local commit of the C2 counterexample: not WIP, green, in PR
set 1, with no other member of its set. -/
def newOkCommit : LocalCommit :=
  { CommitID := "dddddddd"
    CommitHash := "h4"
    Subject := "D"
    WIP := false
    PullRequest := some prOfNewOk
    Index := 1
    PRIndex := some 1 }

/-!
Theorems settling the claims.
-/

/-- C1 (counterexample): the claimed table fails on the code: the fezzik-path
ComputeCheckStatus sends the EXPECTED state and an absent rollup to unknown
(the claim demands pending and pass), and the classic client's
matchPullRequestStack computation sends EXPECTED to fail. -/
theorem checkRollupMapping_counterexample :
    ComputeCheckStatus [some StatusState.expected] ≠ specCheckRollupTable StatusState.expected
    ∧ ComputeCheckStatus [] ≠ specCheckRollupTable StatusState.empty
    ∧ matchPullRequestStackCheckStatus StatusState.expected
      ≠ specCheckRollupTable StatusState.expected := by
  decide

/-- C1 (amended): the specification's check-rollup table holds for the
genqlient-path ComputeMergeStatus on every state; the fezzik-path
ComputeCheckStatus instead sends EXPECTED, the empty state and an absent
rollup (no commit node, or a nil rollup pointer) to unknown; and the classic
client's matchPullRequestStack computation sends the empty state and SUCCESS
to pass, PENDING to pending, and everything else, EXPECTED included, to
fail. -/
theorem checkRollupMapping_amended :
    (∀ s m r, (ComputeMergeStatus s m r).ChecksPass = specCheckRollupTable s)
    ∧ (∀ rest,
        ComputeCheckStatus (some StatusState.success :: rest) = CheckStatus.pass
        ∧ ComputeCheckStatus (some StatusState.pending :: rest) = CheckStatus.pending
        ∧ ComputeCheckStatus (some StatusState.error :: rest) = CheckStatus.fail
        ∧ ComputeCheckStatus (some StatusState.failure :: rest) = CheckStatus.fail
        ∧ ComputeCheckStatus (some StatusState.expected :: rest) = CheckStatus.unknown
        ∧ ComputeCheckStatus (some StatusState.empty :: rest) = CheckStatus.unknown
        ∧ ComputeCheckStatus (none :: rest) = CheckStatus.unknown)
    ∧ ComputeCheckStatus [] = CheckStatus.unknown
    ∧ (∀ s, matchPullRequestStackCheckStatus s =
        if s = StatusState.empty ∨ s = StatusState.success then CheckStatus.pass
        else if s = StatusState.pending then CheckStatus.pending
        else CheckStatus.fail) := by
  refine ⟨?_, ?_, rfl, ?_⟩
  · intro s m r
    cases s <;> rfl
  · intro rest
    exact ⟨rfl, rfl, rfl, rfl, rfl, rfl, rfl⟩
  · intro s
    cases s <;> rfl

/-- C4 (counterexample): the branch name spr/main/zzzzzzzz is accepted and
yields the commit-id zzzzzzzz although its third segment contains no
lowercase hexadecimal digit, contradicting the claimed exact
characterization. -/
theorem commitIdFromBranch_counterexample :
    CommitIdFromBranch "spr/main/zzzzzzzz".toList = "zzzzzzzz".toList
    ∧ ("zzzzzzzz".toList.all isLowerHexDigit) = false := by
  decide

/-- C4 (amended): a pull request's head ref name yields a commit-id exactly
when it has three slash-separated segments, the first segment is spr and the
third segment has UTF-8 byte length 8 — no hexadecimal-digit check is
performed — and the commit-id is that third segment; every other head ref
name yields the empty result and is ignored. -/
theorem commitIdFromBranch_amended (branchName : List Char) :
    CommitIdFromBranch branchName =
      (if (branchName.splitOn '/').length = 3
          ∧ (branchName.splitOn '/').getD 0 [] = "spr".toList
          ∧ utf8Len ((branchName.splitOn '/').getD 2 []) = 8
        then (branchName.splitOn '/').getD 2 []
        else []) := by
  simp only [CommitIdFromBranch]
  generalize branchName.splitOn '/' = L
  rcases L with _ | ⟨a, L⟩
  · simp
  rcases L with _ | ⟨b, L⟩
  · simp
  rcases L with _ | ⟨c, L⟩
  · simp
  rcases L with _ | ⟨d, L⟩
  · by_cases h2 : a = "spr".toList <;> by_cases h3 : utf8Len c = 8 <;>
      simp [h2, h3]
  · have h4 : (a :: b :: c :: d :: L).length ≠ 3 := by
      simp [List.length_cons]
    simp [h4]

/-- C9 (counterexample): the one-rune subject é has UTF-8 byte length 2, so
padNumber appends only 48 spaces and the rendered field has 49 runes, not the
claimed 50. -/
theorem formatSubject_counterexample :
    (FormatSubject [⟨0xe9, by decide⟩]).length ≠ 50
    ∧ (⟨0xe9, by decide⟩ : Char).utf8Size = 2 := by
  decide

/-- C9 (amended): for a subject of at most 50 runes the renderer appends
50 minus the UTF-8 byte length many spaces (padding is computed from bytes,
not runes, so the field has exactly 50 runes only when the two agree, as for
ASCII subjects); a longer subject becomes its first 46 runes followed by
" ...", which is exactly 50 runes. The second conjunct gives the resulting
rune count in every case. -/
theorem formatSubject_amended (subject : List Char) :
    FormatSubject subject =
      (if subject.length ≤ 50 then subject ++ List.replicate (50 - utf8Len subject) ' '
        else subject.take 46 ++ " ...".toList)
    ∧ (FormatSubject subject).length =
      (if subject.length ≤ 50 then subject.length + (50 - utf8Len subject) else 50) := by
  constructor
  · simp [FormatSubject, padNumber]
  · by_cases h : subject.length ≤ 50
    · simp [FormatSubject, padNumber, h]
    · simp [FormatSubject, padNumber, h, List.length_take]
      omega

/-- Helper: the destination-resolution fold started from any accumulator ends
at the accumulator or just above some present PR-set index, never decreases,
and ends strictly above every present PR-set index. -/
theorem foldl_nextPRIndexStep_spec (l : List LocalCommit) (acc : Int) :
    (l.foldl nextPRIndexStep acc = acc
      ∨ ∃ cm ∈ l, ∃ p, cm.PRIndex = some p ∧ l.foldl nextPRIndexStep acc = p + 1)
    ∧ acc ≤ l.foldl nextPRIndexStep acc
    ∧ ∀ cm ∈ l, ∀ p, cm.PRIndex = some p → p < l.foldl nextPRIndexStep acc := by
  induction l generalizing acc with
  | nil => simp
  | cons cm rest ih =>
    rcases hpr : cm.PRIndex with _ | p
    · have h := ih acc
      simp only [List.foldl_cons, nextPRIndexStep, hpr]
      refine ⟨?_, h.2.1, ?_⟩
      · rcases h.1 with h1 | ⟨c, hc, q, hq, he⟩
        · exact Or.inl h1
        · exact Or.inr ⟨c, List.mem_cons_of_mem _ hc, q, hq, he⟩
      · intro c hc q hq
        rcases List.mem_cons.mp hc with hceq | hcm
        · subst hceq; rw [hpr] at hq; cases hq
        · exact h.2.2 c hcm q hq
    · simp only [List.foldl_cons, nextPRIndexStep, hpr]
      by_cases hle : acc ≤ p
      · rw [if_pos hle]
        have h := ih (p + 1)
        refine ⟨?_, ?_, ?_⟩
        · rcases h.1 with h1 | ⟨c, hc, q, hq, he⟩
          · exact Or.inr ⟨cm, List.mem_cons_self cm rest, p, hpr, h1⟩
          · exact Or.inr ⟨c, List.mem_cons_of_mem _ hc, q, hq, he⟩
        · exact le_trans (by omega) h.2.1
        · intro c hc q hq
          rcases List.mem_cons.mp hc with hceq | hcm
          · subst hceq
            rw [hpr] at hq
            injection hq with hq
            subst hq
            exact lt_of_lt_of_le (by omega) h.2.1
          · exact h.2.2 c hcm q hq
      · rw [if_neg hle]
        have h := ih acc
        refine ⟨?_, h.2.1, ?_⟩
        · rcases h.1 with h1 | ⟨c, hc, q, hq, he⟩
          · exact Or.inl h1
          · exact Or.inr ⟨c, List.mem_cons_of_mem _ hc, q, hq, he⟩
        · intro c hc q hq
          rcases List.mem_cons.mp hc with hceq | hcm
          · subst hceq
            rw [hpr] at hq
            injection hq with hq
            subst hq
            exact lt_of_not_le hle |>.trans_le h.2.1
          · exact h.2.2 c hcm q hq

/-- C3: a selection whose destination is nil and whose commit-index set is
empty leaves state and indices completely unchanged; a selection whose
destination is nil but whose commit set is non-empty gets as destination the
next PR-set index, which is zero when no local commit carries a PR-set index
and m + 1 when m is the largest PR-set index carried by a local commit
(PR-set indices are non-negative, as the data model prescribes). -/
theorem applyIndices_destination_spec (s : State) (indices : Indices)
    (hnn : ∀ cm ∈ s.LocalCommits, 0 ≤ cm.PRIndex.getD 0) :
    (indices.DestinationPRIndex = none → indices.CommitIndexes = ∅ →
      ApplyIndices s indices = (s, indices))
    ∧ (indices.DestinationPRIndex = none → indices.CommitIndexes ≠ ∅ →
        (ApplyIndices s indices).2.DestinationPRIndex = some (nextPRIndex s.LocalCommits)
        ∧ ((∀ cm ∈ s.LocalCommits, cm.PRIndex = none) → nextPRIndex s.LocalCommits = 0)
        ∧ (∀ m, (∃ cm ∈ s.LocalCommits, cm.PRIndex = some m) →
            (∀ cm ∈ s.LocalCommits, ∀ p, cm.PRIndex = some p → p ≤ m) →
            nextPRIndex s.LocalCommits = m + 1)) := by
  constructor
  · intro h1 h2
    have : indices.DestinationPRIndex = none ∧ indices.CommitIndexes.card = 0 :=
      ⟨h1, by simp [h2]⟩
    simp [ApplyIndices, this]
  · intro h1 h2
    have hspec := foldl_nextPRIndexStep_spec s.LocalCommits 0
    refine ⟨?_, ?_, ?_⟩
    · simp [ApplyIndices, h1, h2, Finset.card_eq_zero]
    · intro hnone
      rcases hspec.1 with h | ⟨c, hc, q, hq, -⟩
      · exact h
      · rw [hnone c hc] at hq; cases hq
    · intro m ⟨c, hc, hcm⟩ hmax
      have hm0 : 0 ≤ m := by
        have := hnn c hc
        rw [hcm] at this
        simpa using this
      rcases hspec.1 with h | ⟨c2, hc2, q, hq, he⟩
      · have := hspec.2.2 c hc m hcm
        rw [h] at this
        omega
      · have hq2 : q ≤ m := hmax c2 hc2 q hq
        have hlt : m < s.LocalCommits.foldl nextPRIndexStep 0 := hspec.2.2 c hc m hcm
        rw [nextPRIndex, he]
        rw [he] at hlt
        omega

/-- C3 (witness): on a one-commit state carrying PR-set index 2, the empty
nil-destination selection is a no-op, and a non-empty nil-destination
selection gets destination 3. -/
theorem applyIndices_destination_witness :
    ApplyIndices stateWithIndexTwo emptyNilSelection = (stateWithIndexTwo, emptyNilSelection)
    ∧ (ApplyIndices stateWithIndexTwo indexZeroNilSelection).2.DestinationPRIndex = some 3 := by
  constructor
  · exact (applyIndices_destination_spec _ _ (by decide)).1 rfl rfl
  · rw [((applyIndices_destination_spec stateWithIndexTwo indexZeroNilSelection
      (by decide)).2 rfl (by decide)).1]
    rfl

/-- C8: after applying a selection, every PR-set index remaining in the
mutated-PR-sets collection is among the PR-set indices actually carried by
some local commit (mutated sets left with zero members are removed). The
hypothesis states the same invariant for the incoming state, which holds for
every state the program builds (state assembly starts with an empty
mutated-set collection). -/
theorem applyIndices_mutated_have_members (s : State) (indices : Indices)
    (hin : s.MutatedPRSets ⊆ (s.LocalCommits.filterMap LocalCommit.PRIndex).toFinset) :
    (ApplyIndices s indices).1.MutatedPRSets
      ⊆ ((ApplyIndices s indices).1.LocalCommits.filterMap LocalCommit.PRIndex).toFinset := by
  by_cases h : indices.DestinationPRIndex = none ∧ indices.CommitIndexes.card = 0
  · simpa [ApplyIndices, h] using hin
  · intro i hi
    simp only [ApplyIndices, if_neg h] at hi ⊢
    exact (Finset.mem_inter.mp hi).2

/-- C8 (witness): joining the only commit to PR set 5 leaves the mutated set
5 with a member, and the invariant holds on the concrete output state. -/
theorem applyIndices_mutated_have_members_witness :
    (ApplyIndices stateNoIndex intoSetFiveSelection).1.MutatedPRSets
      ⊆ ((ApplyIndices stateNoIndex intoSetFiveSelection).1.LocalCommits.filterMap
          LocalCommit.PRIndex).toFinset :=
  applyIndices_mutated_have_members stateNoIndex intoSetFiveSelection (by decide)

/-- Helper: the map-rebuilding fold does not change the value at a key no
commit writes to (a commit writes only when it has a PR-set index and its
commit-id is the key). -/
theorem foldl_mapInsertStep_untouched (l : List LocalCommit)
    (acc : String → Option Int) (k : String)
    (h : ∀ cm ∈ l, cm.CommitID = k → cm.PRIndex = none) :
    l.foldl mapInsertStep acc k = acc k := by
  induction l generalizing acc with
  | nil => rfl
  | cons cm rest ih =>
    rw [List.foldl_cons, ih _ fun c hc => h c (List.mem_cons_of_mem _ hc)]
    rcases hpr : cm.PRIndex with _ | p
    · simp [mapInsertStep, hpr]
    · have hne : ¬k = cm.CommitID := by
        intro he
        have := h cm (List.mem_cons_self cm rest) he.symm
        rw [hpr] at this
        cases this
      simp [mapInsertStep, hpr, hne]

/-- Helper: any binding the map-rebuilding fold produces beyond its
accumulator comes from some commit of the list with that commit-id and
PR-set index. -/
theorem foldl_mapInsertStep_sound (l : List LocalCommit) (acc : String → Option Int)
    (k : String) (v : Int) (h : l.foldl mapInsertStep acc k = some v) :
    (∃ cm ∈ l, cm.CommitID = k ∧ cm.PRIndex = some v) ∨ acc k = some v := by
  induction l generalizing acc with
  | nil => exact Or.inr h
  | cons cm rest ih =>
    rw [List.foldl_cons] at h
    rcases ih _ h with ⟨c, hc, hck, hcp⟩ | hacc
    · exact Or.inl ⟨c, List.mem_cons_of_mem _ hc, hck, hcp⟩
    · rcases hpr : cm.PRIndex with _ | p
      · simp only [mapInsertStep, hpr] at hacc
        exact Or.inr hacc
      · simp only [mapInsertStep, hpr] at hacc
        by_cases hk : k = cm.CommitID
        · rw [if_pos hk] at hacc
          exact Or.inl ⟨cm, List.mem_cons_self cm rest, hk.symm, by rw [hpr, hacc]⟩
        · rw [if_neg hk] at hacc
          exact Or.inr hacc

/-- Helper: when commit-ids are unique, a commit of the list carrying a
PR-set index produces exactly that binding in the rebuilt map. -/
theorem foldl_mapInsertStep_complete (l : List LocalCommit) (acc : String → Option Int)
    (hu : (l.map fun cm => cm.CommitID).Nodup)
    (cm : LocalCommit) (hcm : cm ∈ l) (v : Int) (hv : cm.PRIndex = some v) :
    l.foldl mapInsertStep acc cm.CommitID = some v := by
  induction l generalizing acc with
  | nil => cases hcm
  | cons c rest ih =>
    have hu2 : (rest.map fun cm => cm.CommitID).Nodup := (List.nodup_cons.mp hu).2
    have hnotin : c.CommitID ∉ rest.map fun cm => cm.CommitID := (List.nodup_cons.mp hu).1
    rw [List.foldl_cons]
    rcases List.mem_cons.mp hcm with hceq | hrest
    · subst hceq
      have huntouched : ∀ c2 ∈ rest, c2.CommitID = cm.CommitID → c2.PRIndex = none := by
        intro c2 hc2 he
        exact absurd (he ▸ List.mem_map_of_mem (fun cm => cm.CommitID) hc2) hnotin
      rw [foldl_mapInsertStep_untouched rest _ _ huntouched]
      simp [mapInsertStep, hv]
    · exact ih _ hu2 hrest

/-- C5: after State.UpdatePRSetState rewrites the per-repository PR-set map,
the map binds a commit-id to an index exactly when a current unmerged local
commit has that id and carries that PR-set index; hence the map contains only
keys present in the current unmerged commits, and every key maps to that
commit's PR-set index. The hypothesis is data-model invariant 1: commit-ids
are unique among the local unmerged commits. -/
theorem updatePRSetState_spec (repoToMap : String → (String → Option Int))
    (repoName : String) (s : State)
    (hu : (s.LocalCommits.map fun cm => cm.CommitID).Nodup) :
    ∀ k v, UpdatePRSetState repoToMap repoName s repoName k = some v ↔
      ∃ cm ∈ s.LocalCommits, cm.CommitID = k ∧ cm.PRIndex = some v := by
  intro k v
  rw [UpdatePRSetState, if_pos rfl, buildPRSetMap]
  constructor
  · intro h
    rcases foldl_mapInsertStep_sound _ _ _ _ h with he | hacc
    · exact he
    · simp at hacc
  · rintro ⟨cm, hcm, hk, hv⟩
    subst hk
    exact foldl_mapInsertStep_complete _ _ hu cm hcm v hv

/-- C5 (witness): on the one-commit state carrying PR-set index 2, the
rewritten per-repository map binds exactly that commit-id to 2. -/
theorem updatePRSetState_witness :
    UpdatePRSetState (fun _ _ => none) "repo" stateWithIndexTwo "repo" "aaaaaaaa" = some 2 :=
  (updatePRSetState_spec (fun _ _ => none) "repo" stateWithIndexTwo (by decide) "aaaaaaaa" 2).mpr
    ⟨commitWithIndexTwo, by decide, rfl, rfl⟩

/-- C6: with a pre-merge check gate configured (a non-empty MergeCheck
command) and a non-empty selected PR set, merging the set is rejected unless
the recorded last-passing commit hash exists and is the literal SKIP or the
commit hash of the newest commit of the set (the head of CommitsByPRSet,
since local commits are head-first); in particular it is rejected when no
hash was ever recorded. -/
theorem mergePRSetCheck_spec (mergeCheck : String) (mergeCheckCommit : Option String)
    (s : State) (index : Int) (hconf : mergeCheck ≠ "")
    (hne : CommitsByPRSet s index ≠ []) :
    (MergePRSetCheckFails mergeCheck mergeCheckCommit s index = false ↔
      ∃ h, mergeCheckCommit = some h
        ∧ (h = "SKIP" ∨ ((CommitsByPRSet s index).getD 0 defaultLocalCommit).CommitHash = h))
    ∧ (mergeCheckCommit = none →
        MergePRSetCheckFails mergeCheck mergeCheckCommit s index = true) := by
  rcases hcs : CommitsByPRSet s index with _ | ⟨c, rest⟩
  · exact absurd hcs hne
  constructor
  · rcases mergeCheckCommit with _ | checked
    · simp [MergePRSetCheckFails, hconf, hcs]
    · simp only [MergePRSetCheckFails, if_pos hconf, hcs]
      simp only [List.getD_cons_zero, Option.some.injEq]
      constructor
      · intro h
        refine ⟨checked, rfl, ?_⟩
        by_cases h1 : checked = "SKIP"
        · exact Or.inl h1
        · by_cases h2 : c.CommitHash = checked
          · exact Or.inr h2
          · rw [decide_eq_false_iff_not] at h
            exact absurd ⟨h1, h2⟩ h
      · rintro ⟨h2, rfl, hor⟩
        rw [decide_eq_false_iff_not]
        rintro ⟨hskip, hhash⟩
        rcases hor with h1 | h1
        · exact hskip h1
        · exact hhash h1
  · rintro rfl
    simp [MergePRSetCheckFails, hconf, hcs]

/-- C6 (witness): on the one-commit state carrying PR-set index 2, with a
configured gate and the recorded hash equal to the newest commit hash, the
merge is not rejected. -/
theorem mergePRSetCheck_witness :
    MergePRSetCheckFails "make test" (some "h1") stateWithIndexTwo 2 = false :=
  ((mergePRSetCheck_spec "make test" (some "h1") stateWithIndexTwo 2 (by decide)
    (by decide)).1).mpr ⟨"h1", rfl, Or.inr (by decide)⟩

/-- C10: an entry of the persisted per-repository map survives
UpdateRepoToCommitIdToPrSet exactly when the old map held that binding and its
commit-id belongs to a current local commit that has an open core-managed
pull request in the PR map; in particular an entry whose commit is still
present locally but whose pull request is gone is dropped. -/
theorem updateRepoToCommitIdToPrSet_spec (prSetMap : String → Option Int)
    (gitCommits : List LocalCommit) (prMap : String → Option PullRequest) :
    ∀ k v, UpdateRepoToCommitIdToPrSet prSetMap gitCommits prMap k = some v ↔
      (prSetMap k = some v ∧ ∃ cm ∈ gitCommits, cm.CommitID = k ∧ (prMap k).isSome) := by
  intro k v
  have hmem : k ∈ accessedIds gitCommits prMap ↔
      ∃ cm ∈ gitCommits, cm.CommitID = k ∧ (prMap k).isSome := by
    simp only [accessedIds, List.mem_filterMap]
    constructor
    · rintro ⟨cm, hcm, hif⟩
      by_cases hs : (prMap cm.CommitID).isSome
      · rw [if_pos hs] at hif
        injection hif with hk2
        subst hk2
        exact ⟨cm, hcm, rfl, hs⟩
      · rw [if_neg hs] at hif
        cases hif
    · rintro ⟨cm, hcm, hk2, hs⟩
      subst hk2
      exact ⟨cm, hcm, by rw [if_pos hs]⟩
  simp only [UpdateRepoToCommitIdToPrSet, purgeUnaccessed]
  by_cases hk : k ∈ accessedIds gitCommits prMap
  · simp only [if_pos hk, hmem.mp hk, and_true]
  · simp only [if_neg hk]
    constructor
    · rintro ⟨⟩
    · rintro ⟨-, hex⟩
      exact absurd (hmem.mpr hex) hk

/-- C7 (counterexample): handling the concrete orphan emits actions in both
update flows, yet the PR-set flow emits no comment and the classic flow emits
no branch deletion — so neither flow performs all three claimed effects. -/
theorem orphanHandling_counterexample :
    (UpdatePRSetsOrphanActions [some orphanedExamplePR]).any isCommentAction = false
    ∧ UpdatePRSetsOrphanActions [some orphanedExamplePR] ≠ []
    ∧ (UpdatePullRequestsOrphanActions [] [orphanedExamplePR]).any isDeleteBranchAction = false
    ∧ UpdatePullRequestsOrphanActions [] [orphanedExamplePR] ≠ [] := by
  decide

/-- C7 (amended): in the PR-set flow, every non-nil orphaned PR is closed
(through the REST edit) and its remote branch is deleted, and no comment of
any kind is emitted; in the classic flow, every open PR whose top commit-id
has gone away from the local commits is commented with "Closing pull request:
commit has gone away" and closed, and no branch deletion is emitted. -/
theorem orphanHandling_amended :
    (∀ orphans (pr : PullRequest), some pr ∈ orphans →
      ForgeAction.editClose pr.Number ∈ UpdatePRSetsOrphanActions orphans
        ∧ ForgeAction.deleteBranch pr.FromBranch ∈ UpdatePRSetsOrphanActions orphans)
    ∧ (∀ orphans n body, ForgeAction.comment n body ∉ UpdatePRSetsOrphanActions orphans)
    ∧ (∀ localCommitIds pullRequests (pr : PullRequest), pr ∈ pullRequests →
        pr.Commit.CommitID ∉ localCommitIds →
        ForgeAction.comment pr.Number "Closing pull request: commit has gone away"
          ∈ UpdatePullRequestsOrphanActions localCommitIds pullRequests
        ∧ ForgeAction.closePR pr.Number
          ∈ UpdatePullRequestsOrphanActions localCommitIds pullRequests)
    ∧ (∀ localCommitIds pullRequests branch,
        ForgeAction.deleteBranch branch ∉ UpdatePullRequestsOrphanActions localCommitIds pullRequests) := by
  refine ⟨?_, ?_, ?_, ?_⟩
  · intro orphans pr hpr
    constructor
    · exact List.mem_flatMap.mpr ⟨some pr, hpr, by simp [DeletePullRequestActions]⟩
    · exact List.mem_flatMap.mpr ⟨some pr, hpr, by simp [DeletePullRequestActions]⟩
  · intro orphans n body hmem
    rcases List.mem_flatMap.mp hmem with ⟨o, -, ho⟩
    rcases o with - | pr
    · cases ho
    · simp [DeletePullRequestActions] at ho
  · intro localCommitIds pullRequests pr hpr hgone
    constructor
    · exact List.mem_flatMap.mpr ⟨pr, hpr, by simp [hgone]⟩
    · exact List.mem_flatMap.mpr ⟨pr, hpr, by simp [hgone]⟩
  · intro localCommitIds pullRequests branch hmem
    rcases List.mem_flatMap.mp hmem with ⟨pr, -, hin⟩
    by_cases hc : pr.Commit.CommitID ∈ localCommitIds
    · simp [hc] at hin
    · simp [hc] at hin

/-- C7 (witness): for the concrete orphan, the PR-set flow emits its close and
its branch deletion, and the classic flow emits its comment and its close. -/
theorem orphanHandling_witness :
    (ForgeAction.editClose 7 ∈ UpdatePRSetsOrphanActions [some orphanedExamplePR]
      ∧ ForgeAction.deleteBranch "spr/main/bbbbbbbb"
        ∈ UpdatePRSetsOrphanActions [some orphanedExamplePR])
    ∧ (ForgeAction.comment 7 "Closing pull request: commit has gone away"
        ∈ UpdatePullRequestsOrphanActions ["aaaaaaaa"] [orphanedExamplePR]
      ∧ ForgeAction.closePR 7
        ∈ UpdatePullRequestsOrphanActions ["aaaaaaaa"] [orphanedExamplePR]) :=
  ⟨orphanHandling_amended.1 [some orphanedExamplePR] orphanedExamplePR (by decide),
    orphanHandling_amended.2.2.1 ["aaaaaaaa"] [orphanedExamplePR] orphanedExamplePR
      (by decide) (by decide)⟩

/-- Helper: the stacked sweep preserves the list length. -/
theorem sweepOldestFirst_length (cfg : RepoConfig) (l : List LocalCommit) :
    (sweepOldestFirst cfg l).length = l.length := by
  induction l with
  | nil => rfl
  | cons cm rest ih =>
    simp only [sweepOldestFirst]
    split
    · simp [ih]
    · split_ifs <;> simp [ih]

/-- Helper: after the oldest-first stacked sweep on commits whose Stacked
flags start false, the commit at position j (0 = oldest) has its flag set
exactly when it has a pull request and every commit up to and including
position j lets the sweep continue. -/
theorem sweepOldestFirst_stackedFlag (cfg : RepoConfig) (l : List LocalCommit)
    (hinit : ∀ cm ∈ l, stackedFlag cm = false) (j : Nat) (hj : j < l.length) :
    stackedFlag ((sweepOldestFirst cfg l).getD j defaultLocalCommit) =
      ((l.getD j defaultLocalCommit).PullRequest.isSome
        && (l.take (j + 1)).all (sweepPasses cfg)) := by
  induction l generalizing j with
  | nil => cases hj
  | cons cm rest ih =>
    have hinitcm : stackedFlag cm = false := hinit cm (List.mem_cons_self cm rest)
    have hinitrest : ∀ c ∈ rest, stackedFlag c = false :=
      fun c hc => hinit c (List.mem_cons_of_mem _ hc)
    have hblocked : sweepPasses cfg cm = false →
        stackedFlag ((cm :: rest).getD j defaultLocalCommit) =
          (((cm :: rest).getD j defaultLocalCommit).PullRequest.isSome
            && ((cm :: rest).take (j + 1)).all (sweepPasses cfg)) := by
      intro hfail
      have hrhs : ((cm :: rest).take (j + 1)).all (sweepPasses cfg) = false := by
        simp [List.take_succ_cons, hfail]
      rw [hrhs, Bool.and_false]
      cases j with
      | zero => simpa using hinitcm
      | succ j2 =>
        have hj2 : j2 < rest.length := by
          simpa using Nat.lt_of_succ_lt_succ hj
        have hmem : rest.getD j2 defaultLocalCommit ∈ rest := by
          rw [List.getD_eq_getElem _ _ hj2]
          exact List.getElem_mem _
        simpa using hinitrest _ hmem
    simp only [sweepOldestFirst]
    split
    · rename_i hpr
      have hpass : sweepPasses cfg cm = true := by simp [sweepPasses, hpr]
      cases j with
      | zero => simp [stackedFlag, hpr, List.getD_cons_zero]
      | succ j2 =>
        have hj2 : j2 < rest.length := by
          simpa using Nat.lt_of_succ_lt_succ hj
        simp only [List.getD_cons_succ, List.take_succ_cons, List.all_cons, hpass,
          Bool.true_and]
        exact ih hinitrest j2 hj2
    · rename_i pr hpr
      by_cases hw : cm.WIP = true
      · rw [if_pos hw]
        exact hblocked (by simp [sweepPasses, hpr, hw])
      · rw [if_neg hw]
        by_cases hcf : (!pr.MergeStatus.NoConflicts) = true
        · rw [if_pos hcf]
          exact hblocked (by
            simp only [Bool.not_eq_true'] at hcf
            simp [sweepPasses, hpr, hcf])
        · rw [if_neg hcf]
          by_cases hck : (cfg.RequireChecks && !(pr.MergeStatus.ChecksPass == CheckStatus.pass)) = true
          · rw [if_pos hck]
            refine hblocked ?_
            simp only [Bool.and_eq_true, Bool.not_eq_true'] at hck
            simp [sweepPasses, hpr, hck.1, hck.2]
          · rw [if_neg hck]
            by_cases hap : (cfg.RequireApproval && !pr.MergeStatus.ReviewApproved) = true
            · rw [if_pos hap]
              refine hblocked ?_
              simp only [Bool.and_eq_true, Bool.not_eq_true'] at hap
              simp [sweepPasses, hpr, hap.1, hap.2]
            · rw [if_neg hap]
              have hpass : sweepPasses cfg cm = true := by
                simp only [Bool.not_eq_true'] at hcf
                simp only [Bool.and_eq_true, not_and, Bool.not_eq_true'] at hck hap
                simp only [sweepPasses, hpr, Bool.and_eq_true, Bool.not_eq_true',
                  Bool.or_eq_true, Bool.not_eq_true]
                refine ⟨⟨⟨?_, ?_⟩, ?_⟩, ?_⟩
                · simpa using hw
                · simpa using hcf
                · by_cases hrc : cfg.RequireChecks = true
                  · exact Or.inr (by simpa using hck hrc)
                  · exact Or.inl (by simpa using hrc)
                · by_cases hra : cfg.RequireApproval = true
                  · exact Or.inr (by simpa using hap hra)
                  · exact Or.inl (by simpa using hra)
              cases j with
              | zero =>
                simp [stackedFlag, List.getD_cons_zero, List.take_succ_cons, List.all_cons,
                  hpass, hpr]
              | succ j2 =>
                have hj2 : j2 < rest.length := by
                  simpa using Nat.lt_of_succ_lt_succ hj
                simp only [List.getD_cons_succ, List.take_succ_cons, List.all_cons, hpass,
                  Bool.true_and]
                exact ih hinitrest j2 hj2

/-- C2 (amended): after SetStackedCheck on freshly assembled commits (all
Stacked flags false, as ComputeMergeStatus produces them), the commit at
head-first position j has its pull request's Stacked flag set exactly when it
has a pull request and every commit from itself down to the oldest —
irrespective of PR-set membership — lets the sweep continue: each such commit
either has no pull request, or is not WIP, has no conflicts, and meets the
configured checks and approval requirements. -/
theorem setStackedCheck_amended (cfg : RepoConfig) (commits : List LocalCommit)
    (hinit : ∀ cm ∈ commits, stackedFlag cm = false) (j : Nat)
    (hj : j < commits.length) :
    stackedFlag ((SetStackedCheck cfg commits).getD j defaultLocalCommit) =
      (((commits.getD j defaultLocalCommit).PullRequest.isSome)
        && (commits.drop j).all (sweepPasses cfg)) := by
  have hrevinit : ∀ cm ∈ commits.reverse, stackedFlag cm = false :=
    fun c hc => hinit c (List.mem_reverse.mp hc)
  have hlen : (sweepOldestFirst cfg commits.reverse).length = commits.length := by
    rw [sweepOldestFirst_length, List.length_reverse]
  have hjr : commits.length - 1 - j < commits.reverse.length := by
    rw [List.length_reverse]
    omega
  have hmain := sweepOldestFirst_stackedFlag cfg commits.reverse hrevinit
    (commits.length - 1 - j) hjr
  have hb1 : j < (sweepOldestFirst cfg commits.reverse).reverse.length := by
    rw [List.length_reverse, hlen]
    exact hj
  have hb2 : commits.length - 1 - j < (sweepOldestFirst cfg commits.reverse).length := by
    rw [hlen]
    omega
  have hlhs : (SetStackedCheck cfg commits).getD j defaultLocalCommit =
      (sweepOldestFirst cfg commits.reverse).getD (commits.length - 1 - j)
        defaultLocalCommit := by
    rw [SetStackedCheck, List.getD_eq_getElem _ _ hb1, List.getElem_reverse,
      List.getD_eq_getElem _ _ hb2]
    congr 1
    rw [hlen]
  have hg : commits.reverse.getD (commits.length - 1 - j) defaultLocalCommit =
      commits.getD j defaultLocalCommit := by
    rw [List.getD_eq_getElem _ _ hjr, List.getElem_reverse,
      List.getD_eq_getElem _ _ hj]
    congr 1
    omega
  have ht : commits.reverse.take (commits.length - 1 - j + 1) = (commits.drop j).reverse := by
    have hidx : commits.length - (commits.length - 1 - j + 1) = j := by omega
    rw [List.take_reverse, hidx]
  rw [hlhs, hmain, hg, ht, List.all_reverse]

/-- C2 (counterexample): with the newer commit alone in PR set 1 and an older
WIP commit in the different PR set 0, the sweep stops at the older commit and
leaves the newer commit's Stacked flag false, although every PR below it in
its own set (there is none) meets the claim's gating requirement — so the
claimed per-set equivalence fails. -/
theorem setStackedCheck_counterexample :
    stackedFlag ((SetStackedCheck laxRepoConfig [newOkCommit, oldWipCommit]).getD 0
      defaultLocalCommit) = false
    ∧ ((SetStackedCheck laxRepoConfig [newOkCommit, oldWipCommit]).getD 0
        defaultLocalCommit).PullRequest.isSome = true
    ∧ specStackedOK laxRepoConfig (SetStackedCheck laxRepoConfig [newOkCommit, oldWipCommit])
        ((SetStackedCheck laxRepoConfig [newOkCommit, oldWipCommit]).getD 0
          defaultLocalCommit) = true := by
  decide

/-- C2 (witness): the amended characterization evaluated on the concrete
two-commit state of the counterexample: the head commit has a pull request,
and the sweep condition over it and the older WIP commit is false, matching
its false Stacked flag. -/
theorem setStackedCheck_amended_witness :
    stackedFlag ((SetStackedCheck laxRepoConfig [newOkCommit, oldWipCommit]).getD 0
        defaultLocalCommit) =
      ((([newOkCommit, oldWipCommit].getD 0 defaultLocalCommit).PullRequest.isSome)
        && ([newOkCommit, oldWipCommit].drop 0).all (sweepPasses laxRepoConfig)) :=
  setStackedCheck_amended laxRepoConfig [newOkCommit, oldWipCommit] (by decide) 0 (by decide)

end Spr
